import Mathlib

/-!
# Verification of the OfflinePay offline transaction sync engine

Shallow embedding of the offline-first payment PWA: the service worker
(`sw.js`), the database status enum (`src/integrations/types.ts`), the
sync hook (`src/hooks/useSyncEngine.ts`), the push-subscription base64
decoder (`urlBase64ToUint8Array`), and — where the library code
(`src/lib/syncEngine.ts`, `src/lib/offlineDb.ts`, the hash canonicalizer
and the offline-limit guard) is not among the provided sources — models
built from the specification's own algorithm descriptions.
-/

namespace OfflinePay

/-! ## Database transaction status enum (src/integrations/types.ts) -/

/-- The `transaction_status` enum exactly as exported in the `Constants`
object of `src/integrations/types.ts`:
`["pending", "completed", "failed", "cancelled"]`. -/
def transaction_status : List String :=
  ["pending", "completed", "failed", "cancelled"]

/-- The union type `"pending" | "completed" | "failed" | "cancelled"`
from `src/integrations/types.ts` (`Database.public.Enums.transaction_status`),
as an inductive. -/
inductive TransactionStatus where
  | pending
  | completed
  | failed
  | cancelled
deriving DecidableEq, Repr

/-- The string a `TransactionStatus` value is stored as in the database. -/
def TransactionStatus.toDbString : TransactionStatus → String
  | .pending => "pending"
  | .completed => "completed"
  | .failed => "failed"
  | .cancelled => "cancelled"

/-! ## Service worker (sw.js) -/

/-- A fetch event's request, with the fields the `fetch` handler of
`sw.js` inspects: `request.method`, `request.url`, `request.mode`. -/
structure FetchRequest where
  method : String
  url : String
  mode : String
deriving DecidableEq, Repr

/-- What the `fetch` listener decides to do: return without calling
`event.respondWith` (the browser handles the request natively), or call
`event.respondWith` with the network-first strategy. -/
inductive FetchAction where
  | passThrough
  | respondNetworkFirst
deriving DecidableEq, Repr

/-- `needle.isPrefixOf`-based model of JavaScript `String.startsWith`. -/
def strStartsWith (s p : String) : Bool :=
  List.isPrefixOf p.toList s.toList

/-- Model of JavaScript `String.includes`: some suffix of `s` has
`sub` as a prefix. -/
def strContains (s sub : String) : Bool :=
  (List.tails s.toList).any (fun t => List.isPrefixOf sub.toList t)

/-- The guard cascade of the `fetch` listener in `sw.js` (lines 50–92):
skip non-GET requests, skip URLs not starting with `http`, skip URLs
containing `supabase.co`; everything else goes through
`event.respondWith(fetch … catch caches.match …)` (network first). -/
def handleFetch (r : FetchRequest) : FetchAction :=
  if r.method ≠ "GET" then FetchAction.passThrough
  else if ¬ strStartsWith r.url "http" then FetchAction.passThrough
  else if strContains r.url "supabase.co" then FetchAction.passThrough
  else FetchAction.respondNetworkFirst

/-- The response the network-first strategy ultimately serves. -/
inductive ServedResponse where
  | fromNetwork (status : Nat)
  | fromCache
  | offlineRoot
  | offline503
deriving DecidableEq, Repr

/-- Resolution of the `respondWith` promise chain in `sw.js`: a network
response is returned as-is; on network failure the cache is consulted;
a cache miss yields the cached `/` page for navigations and an empty
503 response otherwise. `netResponse` is `some status` when the network
succeeded, `none` when `fetch` rejected; `cached` says whether
`caches.match` found an entry. -/
def networkFirstServe (netResponse : Option Nat) (cached : Bool)
    (mode : String) : ServedResponse :=
  match netResponse with
  | some status => ServedResponse.fromNetwork status
  | none =>
    if cached then ServedResponse.fromCache
    else if mode == "navigate" then ServedResponse.offlineRoot
    else ServedResponse.offline503

/-- Message posted by the service worker to a window client. -/
inductive SWMessage where
  | SYNC_TRANSACTIONS
deriving DecidableEq, Repr

/-- The `sync` event listener of `sw.js` (lines 144–156): when the
event tag is `sync-transactions`, post a `SYNC_TRANSACTIONS` message to
every matched client; any other tag does nothing. Returns the list of
(client, message) posts performed. -/
def handleSyncEvent (tag : String) (clientIds : List Nat) :
    List (Nat × SWMessage) :=
  if tag == "sync-transactions" then
    clientIds.map (fun c => (c, SWMessage.SYNC_TRANSACTIONS))
  else []

/-! ## OfflineLimitGuard (spec §4.3; `src/lib` guard code not among the sources) -/

/-- Error raised by the offline-limit guard. -/
inductive GuardError where
  | OfflineLimitExceeded
deriving DecidableEq, Repr

/-- The wallet's offline-usage snapshot (fields `offline_daily_limit`,
`offline_used_today`, `last_offline_reset` of the `Wallet` interface in
`src/hooks/useAuth`). Days are numbered abstractly: `lastOfflineReset`
is a calendar-day index in one canonical time zone. -/
structure WalletOfflineUsage where
  offlineDailyLimit : Nat
  offlineUsedToday : Nat
  lastOfflineReset : Nat
deriving DecidableEq, Repr

/-- Modelled from the spec: step 2 of the OfflineLimitGuard algorithm
(§4.3) — if the candidate transaction's calendar day is strictly later
than `lastOfflineReset`, reset `offlineUsedToday` to 0 and set
`lastOfflineReset` to the candidate's day, before evaluating the limit.
The guard implementation itself is not among the provided sources. -/
def rolloverIfNewDay (w : WalletOfflineUsage) (txDay : Nat) :
    WalletOfflineUsage :=
  if w.lastOfflineReset < txDay then
    { w with offlineUsedToday := 0, lastOfflineReset := txDay }
  else w

/-- Modelled from the spec: steps 2–4 of the OfflineLimitGuard
algorithm (§4.3). After the day rollover, compute
`projected = offlineUsedToday + amount`; if `projected >
offlineDailyLimit`, reject with `OfflineLimitExceeded`, else accept and
return the snapshot with `offlineUsedToday = projected`. -/
def checkOfflineLimit (w : WalletOfflineUsage) (amount : Nat)
    (txDay : Nat) : Except GuardError WalletOfflineUsage :=
  let w2 := rolloverIfNewDay w txDay
  let projected := w2.offlineUsedToday + amount
  if w2.offlineDailyLimit < projected then
    Except.error GuardError.OfflineLimitExceeded
  else
    Except.ok { w2 with offlineUsedToday := projected }

/-- An entry of the local queue as the §8 scenario observes it: its
amount and its status. -/
structure QueueEntry where
  amount : Nat
  status : TransactionStatus
deriving DecidableEq, Repr

/-- Modelled from the spec: the queuing path for one offline candidate
(§3 lifecycle, §5 atomicity). On acceptance the snapshot update and the
append of a `pending` entry are applied together; on rejection both the
snapshot and the queue are left unchanged. -/
def queueOffline (w : WalletOfflineUsage) (q : List QueueEntry)
    (txDay : Nat) (amount : Nat) : WalletOfflineUsage × List QueueEntry :=
  match checkOfflineLimit w amount txDay with
  | Except.ok w2 => (w2, q ++ [⟨amount, TransactionStatus.pending⟩])
  | Except.error _ => (w, q)

/-- Queue a sequence of offline amounts, all dated on day `txDay`,
threading the snapshot and the queue through `queueOffline`. -/
def queueOfflineAll (st : WalletOfflineUsage × List QueueEntry)
    (txDay : Nat) (amounts : List Nat) :
    WalletOfflineUsage × List QueueEntry :=
  amounts.foldl (fun acc a => queueOffline acc.1 acc.2 txDay a) st

/-! ## HashCanonicalizer and LocalTransactionQueue (spec §4.1, §4.2;
the `src/lib` implementations are not among the sources) -/

/-- A Transaction (spec §3; column shapes from the `transactions` row
type of `src/integrations/types.ts`). Amount in minor units,
`description` absent encoded as the sentinel empty string, timestamps
as epoch values. -/
structure Transaction where
  id : String
  senderId : String
  receiverId : String
  amount : Nat
  description : String
  deviceId : String
  isOffline : Bool
  status : TransactionStatus
  syncedAt : Option Nat
  createdAt : Nat
  updatedAt : Nat
deriving DecidableEq, Repr

/-- The six fields the canonical hash is a function of (spec §3
invariant): `{senderId, receiverId, amount, description, deviceId,
createdAt}`. -/
structure HashInput where
  senderId : String
  receiverId : String
  amount : Nat
  description : String
  deviceId : String
  createdAt : Nat
deriving DecidableEq, Repr

/-- Projection of a Transaction onto its hash-relevant fields. -/
def txFields (t : Transaction) : HashInput :=
  ⟨t.senderId, t.receiverId, t.amount, t.description, t.deviceId,
    t.createdAt⟩

/-- Modelled from the spec: the HashCanonicalizer's fixed-order,
fixed-encoding serialization (§4.1) — fields joined in a fixed order,
amount as an integer minor-unit count, `createdAt` as a fixed-precision
epoch value, absent description as the empty string. -/
def canonicalSerialize (h : HashInput) : String :=
  h.senderId ++ "|" ++ h.receiverId ++ "|" ++ toString h.amount ++ "|" ++
    h.description ++ "|" ++ h.deviceId ++ "|" ++ toString h.createdAt

/-- Modelled from the spec: a deterministic 32-bit digest of the
canonical serialization (the concrete digest algorithm is not among the
sources; any pure fold over the serialization is faithful to §4.1's
contract). -/
def hashString (s : String) : Nat :=
  s.toList.foldl (fun h c => (h * 31 + c.toNat) % 4294967296) 5381

/-- The transaction's canonical content hash (spec §4.1). -/
def transactionHash (t : Transaction) : Nat :=
  hashString (canonicalSerialize (txFields t))

/-- Queue errors (spec §4.2, §7). -/
inductive QueueError where
  | DuplicateHash
  | NotFound
deriving DecidableEq, Repr

/-- Modelled from the spec: `append(transaction)` of the
LocalTransactionQueue (§4.2) — fails with `DuplicateHash` if a
transaction with the same hash already exists, otherwise persists the
transaction with status `pending`. -/
def appendTx (q : List Transaction) (t : Transaction) :
    Except QueueError (List Transaction) :=
  if q.any (fun e => transactionHash e == transactionHash t) then
    Except.error QueueError.DuplicateHash
  else
    Except.ok (q ++ [{ t with status := TransactionStatus.pending }])

/-- Number of queue entries carrying the hash `h`. -/
def countHash (q : List Transaction) (h : Nat) : Nat :=
  q.countP (fun e => transactionHash e == h)

/-! ## SyncCoordinator (spec §4.5, §5; `src/lib/syncEngine.ts` is not
among the sources — only its caller `useSyncEngine.ts` is) -/

/-- Modelled from the spec: the coordinator's observable state — the
explicit mutual-exclusion flag `inFlight` ("pass in progress", §5), the
work list of the current pass, the queue's unsynced entries (as
hashes), and a cumulative count of commit attempts. -/
structure SyncCoordinatorState where
  inFlight : Bool
  work : List Nat
  unsynced : List Nat
  attempts : Nat
deriving DecidableEq, Repr

/-- An event delivered to the coordinator: a trigger (manual request,
connectivity restoration, timer, or background-sync wake — all funnel
into the same entry point, §4.5), or one cooperative scheduling step of
an in-flight pass (one awaited commit, §5). -/
inductive SyncEvent where
  | trigger
  | step
deriving DecidableEq, Repr

/-- Modelled from the spec: the coordinator's reaction to one event
(§4.5, §5). A trigger while a pass is in flight is a no-op; an idle
trigger starts a pass by snapshotting the unsynced entries into the
work list. A step commits the head of the work list (one attempt; in
this model the commit succeeds, so the entry leaves the unsynced set);
a step with an empty work list ends the pass, clearing the flag. -/
def applySyncEvent (s : SyncCoordinatorState) :
    SyncEvent → SyncCoordinatorState
  | SyncEvent.trigger =>
    if s.inFlight then s
    else { s with inFlight := true, work := s.unsynced }
  | SyncEvent.step =>
    match s.work with
    | [] => { s with inFlight := false }
    | h :: t =>
      { s with work := t, attempts := s.attempts + 1,
               unsynced := s.unsynced.erase h }

/-- The coordinator before any trigger: idle, queue holding the
unsynced entries `u`, no attempts made. -/
def initSync (u : List Nat) : SyncCoordinatorState :=
  ⟨false, [], u, 0⟩

/-- Run the coordinator over a sequence of events. -/
def runSync (s : SyncCoordinatorState) (evs : List SyncEvent) :
    SyncCoordinatorState :=
  evs.foldl applySyncEvent s

/-- Aggregate result of one sync pass (spec §4.5 step 5 and the status
callback of §6). -/
structure PassResult where
  attempts : Nat
  succeeded : Nat
  failed : Nat
  errorMessage : Option String
deriving DecidableEq, Repr

/-- Modelled from the spec: `syncPendingTransactions` of
`src/lib/syncEngine.ts` (not among the sources) at the granularity C6
needs — §4.5 step 2: if the ConnectivityMonitor reports offline, the
pass short-circuits immediately, reporting zero attempts and no error;
otherwise it drains the unsynced entries (all-success model). -/
def syncPass (online : Bool) (unsynced : List Nat) : PassResult :=
  if online then
    ⟨unsynced.length, unsynced.length, 0, none⟩
  else
    ⟨0, 0, 0, none⟩

/-- What one call of the hook's manual trigger did. -/
structure TriggerOutcome where
  drainInvoked : Bool
  offlineToastShown : Bool
  result : Option PassResult
deriving DecidableEq, Repr

/-- The `triggerSync` callback of `src/hooks/useSyncEngine.ts` (lines
26–40): when `isOnline` is false it shows the "You're offline" toast
and returns without calling `syncPendingTransactions`; otherwise it
awaits the drain and returns its result. -/
def triggerSync (isOnline : Bool) (unsynced : List Nat) :
    TriggerOutcome :=
  if isOnline then
    ⟨true, false, some (syncPass isOnline unsynced)⟩
  else
    ⟨false, true, none⟩

/-! ## Base64url decoding (`urlBase64ToUint8Array`, push hook source) -/

/-- The standard base64 alphabet, index `n` holding the digit for
sixtet value `n`. -/
def base64Chars : List Char :=
  "ABCDEFGHIJKLMNOPQRSTUVWXYZabcdefghijklmnopqrstuvwxyz0123456789+/".toList

/-- The base64 digit for a sixtet value. -/
def sixtetToChar (n : Nat) : Char :=
  base64Chars.getD n 'A'

/-- The sixtet value of a base64 digit, `none` for characters outside
the alphabet (also for `=`). -/
def charToSixtet (c : Char) : Option Nat :=
  List.findIdx? (fun x => x = c) base64Chars

/-- Decode one final base64 quantum `c1 c2 = =` into its single byte. -/
def decodeQuantum1 (c1 c2 : Char) : Option (List Nat) :=
  match charToSixtet c1, charToSixtet c2 with
  | some s1, some s2 => some [s1 * 4 + s2 / 16]
  | _, _ => none

/-- Decode one final base64 quantum `c1 c2 c3 =` into its two bytes. -/
def decodeQuantum2 (c1 c2 c3 : Char) : Option (List Nat) :=
  match charToSixtet c1, charToSixtet c2, charToSixtet c3 with
  | some s1, some s2, some s3 =>
    some [s1 * 4 + s2 / 16, (s2 % 16) * 16 + s3 / 4]
  | _, _, _ => none

/-- Decode one full base64 quantum `c1 c2 c3 c4` into its three bytes. -/
def decodeQuantum3 (c1 c2 c3 c4 : Char) : Option (List Nat) :=
  match charToSixtet c1, charToSixtet c2, charToSixtet c3,
      charToSixtet c4 with
  | some s1, some s2, some s3, some s4 =>
    some [s1 * 4 + s2 / 16, (s2 % 16) * 16 + s3 / 4, (s3 % 4) * 64 + s4]
  | _, _, _, _ => none

/-- Model of the platform's `window.atob` on its valid inputs: decode a
padded standard-base64 character sequence into the byte values
(`charCodeAt` of the returned binary string), `none` on malformed
input. -/
def atobBytes : List Char → Option (List Nat)
  | [] => some []
  | c1 :: c2 :: c3 :: c4 :: rest =>
    if rest.isEmpty ∧ c3 = '=' ∧ c4 = '=' then decodeQuantum1 c1 c2
    else if rest.isEmpty ∧ c4 = '=' then decodeQuantum2 c1 c2 c3
    else
      match decodeQuantum3 c1 c2 c3 c4, atobBytes rest with
      | some bs, some more => some (bs ++ more)
      | _, _ => none
  | _ => none

/-- The `-` → `+`, `_` → `/` substitution performed by the two
`.replace` calls of `urlBase64ToUint8Array`. -/
def fromUrlChar (c : Char) : Char :=
  if c = '-' then '+' else if c = '_' then '/' else c

/-- `urlBase64ToUint8Array` from the push-notifications hook: append
`(4 - length % 4) % 4` padding `=` characters, substitute the base64url
characters back to the standard alphabet, decode with `atob`, and read
the bytes off with `charCodeAt`. Strings are modelled as `List Char`. -/
def urlBase64ToUint8Array (s : List Char) : Option (List Nat) :=
  atobBytes
    ((s ++ List.replicate ((4 - s.length % 4) % 4) '=').map fromUrlChar)

/-- The `+` → `-`, `/` → `_` substitution of base64url encoding. -/
def toUrlChar (c : Char) : Char :=
  if c = '+' then '-' else if c = '/' then '_' else c

/-- The unpadded base64url encoding of a byte sequence, as C10's left
hand side describes it: standard base64 digits in fixed order with `+`
replaced by `-` and `/` by `_`, no `=` padding. -/
def b64urlEncode : List Nat → List Char
  | [] => []
  | [a] =>
    [toUrlChar (sixtetToChar (a / 4)),
     toUrlChar (sixtetToChar (a % 4 * 16))]
  | [a, b] =>
    [toUrlChar (sixtetToChar (a / 4)),
     toUrlChar (sixtetToChar (a % 4 * 16 + b / 16)),
     toUrlChar (sixtetToChar (b % 16 * 4))]
  | a :: b :: c :: rest =>
    [toUrlChar (sixtetToChar (a / 4)),
     toUrlChar (sixtetToChar (a % 4 * 16 + b / 16)),
     toUrlChar (sixtetToChar (b % 16 * 4 + c / 64)),
     toUrlChar (sixtetToChar (c % 64))] ++ b64urlEncode rest

/-- The standard padded base64 encoding of a byte sequence, the
intermediate form `urlBase64ToUint8Array` reconstructs before handing
it to `atob`. -/
def stdPadEncode : List Nat → List Char
  | [] => []
  | [a] =>
    [sixtetToChar (a / 4), sixtetToChar (a % 4 * 16), '=', '=']
  | [a, b] =>
    [sixtetToChar (a / 4), sixtetToChar (a % 4 * 16 + b / 16),
     sixtetToChar (b % 16 * 4), '=']
  | a :: b :: c :: rest =>
    [sixtetToChar (a / 4), sixtetToChar (a % 4 * 16 + b / 16),
     sixtetToChar (b % 16 * 4 + c / 64), sixtetToChar (c % 64)] ++
      stdPadEncode rest

/-! ## Invariant of the coordinator event machine -/

/-- The single-flight invariant: attempts so far plus remaining
unsynced entries account for the initial queue exactly once; in flight
the work list is precisely the unsynced set, idle it is empty. -/
def SyncInv (n : Nat) (s : SyncCoordinatorState) : Prop :=
  s.attempts + s.unsynced.length = n ∧
  (s.inFlight = true → s.work = s.unsynced) ∧
  (s.inFlight = false → s.work = [])

lemma syncInv_init (u : List Nat) : SyncInv u.length (initSync u) := by
  refine ⟨by simp [initSync], ?_, fun _ => rfl⟩
  intro h
  simp [initSync] at h

lemma syncInv_apply {n : Nat} {s : SyncCoordinatorState}
    (h : SyncInv n s) (e : SyncEvent) : SyncInv n (applySyncEvent s e) := by
  obtain ⟨hcount, hfly, hidle⟩ := h
  cases e with
  | trigger =>
    by_cases hf : s.inFlight
    · simpa [applySyncEvent, hf] using ⟨hcount, hfly, hidle⟩
    · simp only [applySyncEvent, hf, if_false, Bool.false_eq_true]
      exact ⟨hcount, fun _ => rfl, by simp⟩
  | step =>
    cases hw : s.work with
    | nil =>
      simp only [applySyncEvent, hw]
      exact ⟨hcount, by simp, fun _ => rfl⟩
    | cons hd tl =>
      have hf : s.inFlight = true := by
        cases hfb : s.inFlight
        · exact absurd (hidle hfb) (by simp [hw])
        · rfl
      have hu : s.unsynced = hd :: tl := by rw [← hfly hf, hw]
      simp only [applySyncEvent, hw]
      refine ⟨?_, fun _ => ?_, fun hcontra => ?_⟩
      · rw [hu] at hcount ⊢
        simp only [List.length_cons] at hcount
        dsimp only
        rw [List.erase_cons_head]
        omega
      · rw [hu]
        simp
      · rw [hf] at hcontra
        exact absurd hcontra (by simp)

lemma syncInv_run {n : Nat} (s : SyncCoordinatorState)
    (evs : List SyncEvent) (h : SyncInv n s) : SyncInv n (runSync s evs) := by
  induction evs generalizing s with
  | nil => exact h
  | cons e rest ih => exact ih _ (syncInv_apply h e)

/-! ## Base64 round-trip lemmas -/

lemma charToSixtet_sixtetToChar :
    ∀ n, n < 64 → charToSixtet (sixtetToChar n) = some n := by
  decide

lemma fromUrl_toUrl_sixtet :
    ∀ n, n < 64 → fromUrlChar (toUrlChar (sixtetToChar n)) = sixtetToChar n := by
  decide

lemma sixtet_ne_pad : ∀ n, n < 64 → sixtetToChar n ≠ '=' := by
  decide

lemma fromUrl_pad : fromUrlChar '=' = '=' := by
  decide

lemma atobBytes_final1 (c1 c2 : Char) :
    atobBytes [c1, c2, '=', '='] = decodeQuantum1 c1 c2 := by
  simp [atobBytes]

lemma atobBytes_final2 (c1 c2 c3 : Char) (h3 : c3 ≠ '=') :
    atobBytes [c1, c2, c3, '='] = decodeQuantum2 c1 c2 c3 := by
  simp [atobBytes, h3]

lemma atobBytes_quantum (c1 c2 c3 c4 : Char) (rest : List Char)
    (h3 : c3 ≠ '=') (h4 : c4 ≠ '=') :
    atobBytes (c1 :: c2 :: c3 :: c4 :: rest) =
      match decodeQuantum3 c1 c2 c3 c4, atobBytes rest with
      | some bs, some more => some (bs ++ more)
      | _, _ => none := by
  simp [atobBytes, h3, h4]

lemma decodeQuantum1_eval (a : Nat) (ha : a < 256) :
    decodeQuantum1 (sixtetToChar (a / 4)) (sixtetToChar (a % 4 * 16)) =
      some [a] := by
  simp only [decodeQuantum1,
    charToSixtet_sixtetToChar (a / 4) (by omega),
    charToSixtet_sixtetToChar (a % 4 * 16) (by omega)]
  simp only [Option.some.injEq, List.cons.injEq, and_true]
  omega

lemma decodeQuantum2_eval (a b : Nat) (ha : a < 256) (hb : b < 256) :
    decodeQuantum2 (sixtetToChar (a / 4))
      (sixtetToChar (a % 4 * 16 + b / 16)) (sixtetToChar (b % 16 * 4)) =
      some [a, b] := by
  simp only [decodeQuantum2,
    charToSixtet_sixtetToChar (a / 4) (by omega),
    charToSixtet_sixtetToChar (a % 4 * 16 + b / 16) (by omega),
    charToSixtet_sixtetToChar (b % 16 * 4) (by omega)]
  simp only [Option.some.injEq, List.cons.injEq, and_true]
  constructor
  · omega
  · omega

lemma decodeQuantum3_eval (a b c : Nat) (ha : a < 256) (hb : b < 256)
    (hc : c < 256) :
    decodeQuantum3 (sixtetToChar (a / 4))
      (sixtetToChar (a % 4 * 16 + b / 16))
      (sixtetToChar (b % 16 * 4 + c / 64)) (sixtetToChar (c % 64)) =
      some [a, b, c] := by
  simp only [decodeQuantum3,
    charToSixtet_sixtetToChar (a / 4) (by omega),
    charToSixtet_sixtetToChar (a % 4 * 16 + b / 16) (by omega),
    charToSixtet_sixtetToChar (b % 16 * 4 + c / 64) (by omega),
    charToSixtet_sixtetToChar (c % 64) (by omega)]
  simp only [Option.some.injEq, List.cons.injEq, and_true]
  refine ⟨by omega, by omega, by omega⟩

lemma pad_encode : ∀ b : List Nat, (∀ x ∈ b, x < 256) →
    (b64urlEncode b ++
        List.replicate ((4 - (b64urlEncode b).length % 4) % 4) '=').map
      fromUrlChar = stdPadEncode b := by
  intro b h
  induction b using b64urlEncode.induct with
  | case1 => rfl
  | case2 a =>
    have ha : a < 256 := h a (by simp)
    simp only [b64urlEncode, stdPadEncode, List.length_cons,
      List.length_nil]
    have hpad : (4 - (0 + 1 + 1) % 4) % 4 = 2 := by norm_num
    rw [hpad]
    simp only [List.replicate, List.cons_append, List.nil_append,
      List.map_cons, List.map_nil, fromUrl_pad,
      fromUrl_toUrl_sixtet (a / 4) (by omega),
      fromUrl_toUrl_sixtet (a % 4 * 16) (by omega)]
  | case3 a b =>
    have ha : a < 256 := h a (by simp)
    have hb : b < 256 := h b (by simp)
    simp only [b64urlEncode, stdPadEncode, List.length_cons,
      List.length_nil]
    have hpad : (4 - (0 + 1 + 1 + 1) % 4) % 4 = 1 := by norm_num
    rw [hpad]
    simp only [List.replicate, List.cons_append, List.nil_append,
      List.map_cons, List.map_nil, fromUrl_pad,
      fromUrl_toUrl_sixtet (a / 4) (by omega),
      fromUrl_toUrl_sixtet (a % 4 * 16 + b / 16) (by omega),
      fromUrl_toUrl_sixtet (b % 16 * 4) (by omega)]
  | case4 a b c rest ih =>
    have ha : a < 256 := h a (by simp)
    have hb : b < 256 := h b (by simp)
    have hc : c < 256 := h c (by simp)
    have hrest : ∀ x ∈ rest, x < 256 := fun x hx => h x (by simp [hx])
    simp only [b64urlEncode, stdPadEncode, List.cons_append,
      List.nil_append, List.length_cons]
    have hpad : (4 - ((b64urlEncode rest).length + 1 + 1 + 1 + 1) % 4) % 4
        = (4 - (b64urlEncode rest).length % 4) % 4 := by omega
    rw [hpad]
    simp only [List.map_cons,
      fromUrl_toUrl_sixtet (a / 4) (by omega),
      fromUrl_toUrl_sixtet (a % 4 * 16 + b / 16) (by omega),
      fromUrl_toUrl_sixtet (b % 16 * 4 + c / 64) (by omega),
      fromUrl_toUrl_sixtet (c % 64) (by omega)]
    rw [ih hrest]

lemma atob_stdPadEncode : ∀ b : List Nat, (∀ x ∈ b, x < 256) →
    atobBytes (stdPadEncode b) = some b := by
  intro b h
  induction b using stdPadEncode.induct with
  | case1 => rfl
  | case2 a =>
    have ha : a < 256 := h a (by simp)
    rw [stdPadEncode, atobBytes_final1, decodeQuantum1_eval a ha]
  | case3 a b =>
    have ha : a < 256 := h a (by simp)
    have hb : b < 256 := h b (by simp)
    rw [stdPadEncode,
      atobBytes_final2 _ _ _ (sixtet_ne_pad (b % 16 * 4) (by omega)),
      decodeQuantum2_eval a b ha hb]
  | case4 a b c rest ih =>
    have ha : a < 256 := h a (by simp)
    have hb : b < 256 := h b (by simp)
    have hc : c < 256 := h c (by simp)
    have hrest : ∀ x ∈ rest, x < 256 := fun x hx => h x (by simp [hx])
    rw [stdPadEncode]
    simp only [List.cons_append, List.nil_append]
    rw [atobBytes_quantum _ _ _ _ _
        (sixtet_ne_pad (b % 16 * 4 + c / 64) (by omega))
        (sixtet_ne_pad (c % 64) (by omega)),
      decodeQuantum3_eval a b c ha hb hc, ih hrest]
    rfl

end OfflinePay

namespace OfflinePay

/-! ## Claims -/

/-- C2 counterexample: the claim says the status enum has exactly the
five states `pending`, `syncing`, `completed`, `failed`, `cancelled`,
but the `transaction_status` enum of `src/integrations/types.ts` has
four members and `syncing` is not one of them. -/
theorem c2_five_status_counterexample :
    ¬ (transaction_status.length = 5 ∧ "syncing" ∈ transaction_status) := by
  decide

/-- C2 (amended): every Transaction status is one of exactly the four
states `pending`, `completed`, `failed`, `cancelled` of the
`transaction_status` enum; `syncing` is not a representable database
status. -/
theorem c2_four_status_states :
    transaction_status = ["pending", "completed", "failed", "cancelled"] ∧
    transaction_status.length = 4 ∧
    (∀ s : TransactionStatus,
      TransactionStatus.toDbString s ∈ transaction_status) ∧
    "syncing" ∉ transaction_status := by
  refine ⟨rfl, rfl, ?_, by decide⟩
  intro s
  cases s <;> decide

/-- C6: a sync pass triggered while connectivity reports offline
short-circuits with zero commit attempts and no error, and the manual
trigger of `useSyncEngine.ts` returns without invoking the drain at
all when offline. -/
theorem c6_offline_short_circuit :
    ∀ unsynced : List Nat,
      triggerSync false unsynced =
        ⟨false, true, none⟩ ∧
      (triggerSync false unsynced).drainInvoked = false ∧
      (triggerSync false unsynced).result = none ∧
      syncPass false unsynced = ⟨0, 0, 0, none⟩ := by
  intro u
  exact ⟨rfl, rfl, rfl, rfl⟩

/-- C8: the service worker's `sync` handler posts `SYNC_TRANSACTIONS`
to every client exactly when the event tag is `sync-transactions` and
does nothing for any other tag; delivering the resulting trigger to the
coordinator with no pending work makes zero attempts, and delivering it
mid-flight is a no-op on the coordinator state. -/
theorem c8_background_sync_trigger :
    (∀ clients : List Nat,
      handleSyncEvent "sync-transactions" clients =
        clients.map (fun c => (c, SWMessage.SYNC_TRANSACTIONS))) ∧
    (∀ (tag : String) (clients : List Nat), tag ≠ "sync-transactions" →
      handleSyncEvent tag clients = []) ∧
    (runSync (initSync []) [SyncEvent.trigger, SyncEvent.step]).attempts
      = 0 ∧
    (∀ s : SyncCoordinatorState, s.inFlight = true →
      applySyncEvent s SyncEvent.trigger = s) := by
  refine ⟨fun clients => by simp [handleSyncEvent], ?_, by decide, ?_⟩
  · intro tag clients h
    simp [handleSyncEvent, h]
  · intro s h
    simp [applySyncEvent, h]

/-- C8 witness: a non-sync tag posts nothing, and a trigger arriving
while a pass is in flight leaves the coordinator state unchanged. -/
theorem c8_background_sync_trigger_witness :
    handleSyncEvent "periodic-refresh" [7] = [] ∧
    applySyncEvent ⟨true, [5], [5], 0⟩ SyncEvent.trigger =
      ⟨true, [5], [5], 0⟩ :=
  ⟨c8_background_sync_trigger.2.1 "periodic-refresh" [7] (by decide),
   c8_background_sync_trigger.2.2.2 ⟨true, [5], [5], 0⟩ rfl⟩

/-- C3: starting a pass while one is in flight is a no-op on the
coordinator; over any sequence of triggers and scheduling steps from an
idle coordinator, attempts plus still-unsynced entries equal the
initial queue size exactly once (so no entry is ever attempted twice);
and two triggers within the same scheduling tick over a two-entry queue
still produce exactly two commit attempts. -/
theorem c3_single_flight :
    (∀ s : SyncCoordinatorState, s.inFlight = true →
      applySyncEvent s SyncEvent.trigger = s) ∧
    (∀ (u : List Nat) (evs : List SyncEvent),
      (runSync (initSync u) evs).attempts +
        (runSync (initSync u) evs).unsynced.length = u.length) ∧
    runSync (initSync [1, 2])
        [SyncEvent.trigger, SyncEvent.trigger, SyncEvent.step,
         SyncEvent.step, SyncEvent.step] =
      ⟨false, [], [], 2⟩ := by
  refine ⟨?_, ?_, by decide⟩
  · intro s h
    simp [applySyncEvent, h]
  · intro u evs
    exact (syncInv_run (initSync u) evs (syncInv_init u)).1

/-- C3 witness: a trigger during an in-flight pass leaves the state
unchanged, and the double-trigger run attempts each of the two entries
exactly once. -/
theorem c3_single_flight_witness :
    applySyncEvent ⟨true, [9], [9], 3⟩ SyncEvent.trigger =
      ⟨true, [9], [9], 3⟩ ∧
    (runSync (initSync [4]) [SyncEvent.trigger]).attempts +
      (runSync (initSync [4]) [SyncEvent.trigger]).unsynced.length = 1 :=
  ⟨c3_single_flight.1 ⟨true, [9], [9], 3⟩ rfl,
   c3_single_flight.2.1 [4] [SyncEvent.trigger]⟩

/-- C9: the fetch handler passes a request through (never calls
`respondWith`) exactly when the method is not GET, or the URL does not
start with `http`, or the URL contains `supabase.co`; every other GET
request is answered by the network-first strategy, which returns the
network response when the network succeeds and falls back to the cache
when it fails. -/
theorem c9_fetch_bypass :
    (∀ r : FetchRequest,
      (handleFetch r = FetchAction.passThrough ↔
        (r.method ≠ "GET" ∨ strStartsWith r.url "http" = false ∨
          strContains r.url "supabase.co" = true)) ∧
      (handleFetch r = FetchAction.respondNetworkFirst ↔
        (r.method = "GET" ∧ strStartsWith r.url "http" = true ∧
          strContains r.url "supabase.co" = false))) ∧
    (∀ (status : Nat) (cached : Bool) (mode : String),
      networkFirstServe (some status) cached mode =
        ServedResponse.fromNetwork status) ∧
    (∀ mode : String, networkFirstServe none true mode =
      ServedResponse.fromCache) := by
  refine ⟨?_, fun _ _ _ => rfl, fun _ => rfl⟩
  intro r
  by_cases hm : r.method = "GET" <;>
    by_cases hs : strStartsWith r.url "http" <;>
      by_cases hc : strContains r.url "supabase.co" <;>
        simp [handleFetch, hm, hs, hc]

/-- C1: the offline-limit guard rejects with `OfflineLimitExceeded`
exactly when the projected usage (post-rollover usage plus amount)
strictly exceeds the daily limit, leaves both snapshot and queue
unchanged on rejection, and on acceptance returns the snapshot with
`offlineUsedToday` equal to the projected value; in the §8 scenario
(limit 100, used 0, amounts 40, 40, 30 on one day) the first two are
accepted (usage 80), the third is rejected, and the queue holds exactly
the two `pending` entries. -/
theorem c1_offline_limit_guard :
    (∀ (w : WalletOfflineUsage) (amount txDay : Nat),
      (checkOfflineLimit w amount txDay =
          Except.error GuardError.OfflineLimitExceeded ↔
        (rolloverIfNewDay w txDay).offlineDailyLimit <
          (rolloverIfNewDay w txDay).offlineUsedToday + amount) ∧
      (∀ w2, checkOfflineLimit w amount txDay = Except.ok w2 →
        w2.offlineUsedToday =
          (rolloverIfNewDay w txDay).offlineUsedToday + amount ∧
        w2.offlineDailyLimit =
          (rolloverIfNewDay w txDay).offlineDailyLimit) ∧
      (∀ q, checkOfflineLimit w amount txDay =
          Except.error GuardError.OfflineLimitExceeded →
        queueOffline w q txDay amount = (w, q))) ∧
    queueOfflineAll (⟨100, 0, 0⟩, []) 0 [40, 40, 30] =
      (⟨100, 80, 0⟩,
       [⟨40, TransactionStatus.pending⟩,
        ⟨40, TransactionStatus.pending⟩]) := by
  refine ⟨?_, by decide⟩
  intro w amount txDay
  by_cases h : (rolloverIfNewDay w txDay).offlineDailyLimit <
      (rolloverIfNewDay w txDay).offlineUsedToday + amount
  · refine ⟨by simp [checkOfflineLimit, h], ?_, ?_⟩
    · intro w2 hok
      simp [checkOfflineLimit, h] at hok
    · intro q herr
      simp [queueOffline, checkOfflineLimit, h]
  · refine ⟨by simp [checkOfflineLimit, h], ?_, ?_⟩
    · intro w2 hok
      simp only [checkOfflineLimit, if_neg h, Except.ok.injEq] at hok
      rw [← hok]
      exact ⟨rfl, rfl⟩
    · intro q herr
      simp [checkOfflineLimit, h] at herr

/-- C1 witness: with limit 100 and 80 already used, a 30 candidate is
rejected and the queuing path leaves snapshot and queue unchanged. -/
theorem c1_offline_limit_guard_witness :
    queueOffline ⟨100, 80, 0⟩ [⟨40, TransactionStatus.pending⟩] 0 30 =
      (⟨100, 80, 0⟩, [⟨40, TransactionStatus.pending⟩]) :=
  (c1_offline_limit_guard.1 ⟨100, 80, 0⟩ 30 0).2.2
    [⟨40, TransactionStatus.pending⟩] (by rfl)

/-- C4: when the candidate's calendar day is strictly later than
`lastOfflineReset`, the guard resets `offlineUsedToday` to 0 and sets
`lastOfflineReset` to the candidate's day before evaluating the limit:
the decision equals the decision on the reset snapshot, rejection
depends only on `amount > limit` regardless of the prior day's usage,
and an accepted snapshot carries usage `amount` and reset day `txDay`. -/
theorem c4_day_boundary_reset :
    ∀ (w : WalletOfflineUsage) (amount txDay : Nat),
      w.lastOfflineReset < txDay →
      rolloverIfNewDay w txDay =
        { w with offlineUsedToday := 0, lastOfflineReset := txDay } ∧
      checkOfflineLimit w amount txDay =
        checkOfflineLimit
          { w with offlineUsedToday := 0, lastOfflineReset := txDay }
          amount txDay ∧
      (checkOfflineLimit w amount txDay =
          Except.error GuardError.OfflineLimitExceeded ↔
        w.offlineDailyLimit < amount) ∧
      (∀ w2, checkOfflineLimit w amount txDay = Except.ok w2 →
        w2.offlineUsedToday = amount ∧ w2.lastOfflineReset = txDay) := by
  intro w amount txDay hday
  have hroll : rolloverIfNewDay w txDay =
      { w with offlineUsedToday := 0, lastOfflineReset := txDay } := by
    simp [rolloverIfNewDay, hday]
  have hroll2 : rolloverIfNewDay
      { w with offlineUsedToday := 0, lastOfflineReset := txDay } txDay =
      { w with offlineUsedToday := 0, lastOfflineReset := txDay } := by
    simp [rolloverIfNewDay]
  refine ⟨hroll, ?_, ?_, ?_⟩
  · simp only [checkOfflineLimit, hroll, hroll2]
  · simp only [checkOfflineLimit, hroll]
    by_cases h : w.offlineDailyLimit < amount
    · simp [h]
    · simp [h]
  · intro w2 hok
    simp only [checkOfflineLimit, hroll, Nat.zero_add] at hok
    by_cases h : w.offlineDailyLimit < amount
    · simp [h] at hok
    · simp only [if_neg h, Except.ok.injEq] at hok
      rw [← hok]
      exact ⟨rfl, rfl⟩

/-- C4 witness: a wallet that exhausted its 100 limit on day 0 accepts
a 50 candidate dated day 1, evaluating against the reset snapshot. -/
theorem c4_day_boundary_reset_witness :
    checkOfflineLimit ⟨100, 100, 0⟩ 50 1 =
      checkOfflineLimit ⟨100, 0, 1⟩ 50 1 :=
  (c4_day_boundary_reset ⟨100, 100, 0⟩ 50 1 (by decide)).2.1

/-- C7: the canonical hash is a deterministic pure function of the six
fields `{senderId, receiverId, amount, description, deviceId,
createdAt}`: two transactions agreeing on those fields hash equally, no
matter how their id, status, offline flag or sync metadata differ. -/
theorem c7_hash_deterministic :
    ∀ t1 t2 : Transaction,
      t1.senderId = t2.senderId → t1.receiverId = t2.receiverId →
      t1.amount = t2.amount → t1.description = t2.description →
      t1.deviceId = t2.deviceId → t1.createdAt = t2.createdAt →
      txFields t1 = txFields t2 ∧ transactionHash t1 = transactionHash t2 := by
  intro t1 t2 h1 h2 h3 h4 h5 h6
  have hf : txFields t1 = txFields t2 := by
    simp [txFields, h1, h2, h3, h4, h5, h6]
  exact ⟨hf, by rw [transactionHash, transactionHash, hf]⟩

/-- C7 witness: two transactions with identical economic content but
different id, status, `syncedAt` and `updatedAt` hash identically. -/
theorem c7_hash_deterministic_witness :
    transactionHash
        ⟨"id-1", "alice", "bob", 500, "lunch", "device-A", true,
          TransactionStatus.pending, none, 1700000000, 1700000000⟩ =
      transactionHash
        ⟨"id-2", "alice", "bob", 500, "lunch", "device-A", false,
          TransactionStatus.completed, some 1700000500, 1700000000,
          1700000500⟩ :=
  (c7_hash_deterministic _ _ rfl rfl rfl rfl rfl rfl).2

/-- C5: appending a transaction whose hash already exists in the queue
fails with `DuplicateHash` and never double-appends: after a first
append of `t1` into a queue not yet holding its hash, appending any
`t2` with the same economic content and the same `createdAt`/`deviceId`
fails with `DuplicateHash` and the queue holds exactly one entry for
that hash. -/
theorem c5_duplicate_hash_append :
    ∀ (q : List Transaction) (t1 t2 : Transaction) (q1 : List Transaction),
      txFields t1 = txFields t2 →
      countHash q (transactionHash t1) = 0 →
      appendTx q t1 = Except.ok q1 →
      appendTx q1 t2 = Except.error QueueError.DuplicateHash ∧
      countHash q1 (transactionHash t2) = 1 := by
  intro q t1 t2 q1 hf hc happ
  have hhash : transactionHash t1 = transactionHash t2 := by
    rw [transactionHash, transactionHash, hf]
  have hpend : transactionHash { t1 with status := TransactionStatus.pending }
      = transactionHash t1 := rfl
  by_cases hany : q.any (fun e => transactionHash e == transactionHash t1)
  · rw [appendTx, if_pos hany] at happ
    exact absurd happ (by simp)
  · rw [appendTx, if_neg hany] at happ
    have hq1 : q1 = q ++ [{ t1 with status := TransactionStatus.pending }] := by
      injection happ with h
      exact h.symm
    constructor
    · rw [appendTx, if_pos]
      rw [hq1, List.any_append]
      simp [hpend, hhash]
    · rw [hq1, countHash, List.countP_append, ← hhash]
      have h0 : q.countP (fun e => transactionHash e == transactionHash t1)
          = 0 := hc
      rw [h0]
      simp [List.countP, List.countP.go, hpend]

/-- C5 witness: two concrete transactions with identical economic
content and identical `createdAt`/`deviceId`: the second append is a
`DuplicateHash` failure and the queue holds one entry for the hash. -/
theorem c5_duplicate_hash_append_witness :
    appendTx
        [⟨"id-1", "alice", "bob", 500, "", "device-A", true,
           TransactionStatus.pending, none, 1700000000, 1700000000⟩]
        ⟨"id-2", "alice", "bob", 500, "", "device-A", true,
          TransactionStatus.pending, none, 1700000000, 1700000001⟩ =
      Except.error QueueError.DuplicateHash ∧
    countHash
        [⟨"id-1", "alice", "bob", 500, "", "device-A", true,
           TransactionStatus.pending, none, 1700000000, 1700000000⟩]
        (transactionHash
          ⟨"id-2", "alice", "bob", 500, "", "device-A", true,
            TransactionStatus.pending, none, 1700000000, 1700000001⟩) = 1 :=
  c5_duplicate_hash_append []
    ⟨"id-1", "alice", "bob", 500, "", "device-A", true,
      TransactionStatus.pending, none, 1700000000, 1700000000⟩
    ⟨"id-2", "alice", "bob", 500, "", "device-A", true,
      TransactionStatus.pending, none, 1700000000, 1700000001⟩
    [⟨"id-1", "alice", "bob", 500, "", "device-A", true,
       TransactionStatus.pending, none, 1700000000, 1700000000⟩]
    rfl rfl rfl

/-- C10: `urlBase64ToUint8Array` is a left inverse of unpadded
base64url encoding: for every byte sequence `b`, decoding the unpadded
base64url encoding of `b` (`+` replaced by `-`, `/` by `_`, no `=`)
returns exactly `b`, whose length is the decoded raw length. -/
theorem c10_urlBase64_left_inverse :
    ∀ b : List Nat, (∀ x ∈ b, x < 256) →
      urlBase64ToUint8Array (b64urlEncode b) = some b ∧
      (urlBase64ToUint8Array (b64urlEncode b)).map List.length =
        some b.length := by
  intro b h
  have hd : urlBase64ToUint8Array (b64urlEncode b) = some b := by
    rw [urlBase64ToUint8Array, pad_encode b h, atob_stdPadEncode b h]
  refine ⟨hd, ?_⟩
  rw [hd]
  rfl

/-- C10 witness: the bytes `[72, 105, 33]` and `[251, 239]` (the
latter encoding to the url-alphabet characters `-` and `_`) round-trip
through `b64urlEncode` and `urlBase64ToUint8Array`. -/
theorem c10_urlBase64_left_inverse_witness :
    urlBase64ToUint8Array (b64urlEncode [72, 105, 33]) =
      some [72, 105, 33] ∧
    urlBase64ToUint8Array (b64urlEncode [251, 239]) = some [251, 239] :=
  ⟨(c10_urlBase64_left_inverse [72, 105, 33] (by decide)).1,
   (c10_urlBase64_left_inverse [251, 239] (by decide)).1⟩

end OfflinePay
